import Mathlib

/-!
Shallow embedding of `azul_audit_forwarder/client.py` (the poll-buffer-forward
cycle with checkpointing and health-state management).

Modelling conventions:
* Strings manipulated by the program (the `StringIO` buffer, checkpoint file
  content, log lines) are `List Char`.
* Wall-clock time is frozen per cycle and passed as an `Int` parameter `now`
  (Unix epoch seconds); `time.time()` reads inside one cycle all see `now`.
* Outcomes of external calls (Loki HTTP queries, the sink POST, the CloudWatch
  API calls, checkpoint-file I/O) are environment parameters, one per call
  site, describing what the external world answered.
* Python exceptions that the code does not catch are modelled with `Except`.
-/

/-! ### Models of Python primitive string operations -/

/-- Model of Python's whitespace test used by `str.strip()`. -/
def isSpaceChar (c : Char) : Bool := c.isWhitespace

/-- Model of Python `str.strip()`: drop whitespace from both ends. -/
def pyStrip (l : List Char) : List Char :=
  ((l.dropWhile isSpaceChar).reverse.dropWhile isSpaceChar).reverse

/-- Decimal digit value of a character, if it is a digit. -/
def digitVal (c : Char) : Option Nat :=
  if 48 ≤ c.toNat ∧ c.toNat ≤ 57 then some (c.toNat - 48) else none

/-- Accumulate decimal digits left to right; `none` as soon as a non-digit
appears. -/
def parseDigitsCore (l : List Char) : Option Nat :=
  l.foldl (fun acc c => acc.bind fun a => (digitVal c).map fun d => a * 10 + d) (some 0)

/-- Digits of a non-empty all-digit string; `none` on empty input. -/
def parseDigits (l : List Char) : Option Nat :=
  if l.isEmpty then none else parseDigitsCore l

/-- Model of Python `int(s)` on an already-stripped string: an optional leading
minus sign followed by at least one decimal digit; anything else raises
(`none`). -/
def pyToInt (l : List Char) : Option Int :=
  match l with
  | [] => none
  | c :: rest =>
    if c = '-' then (parseDigits rest).map fun n => -(n : Int)
    else (parseDigits l).map fun n => (n : Int)

/-- The decimal digit character for `d < 10`. -/
def digitChar (d : Nat) : Char := Char.ofNat (48 + d)

/-- Little-endian decimal digits of `n`, with explicit fuel (`fuel ≥ n`
suffices); structural so that the kernel can evaluate it. -/
def natSerAux : Nat → Nat → List Char
  | 0, _ => []
  | fuel + 1, n => if n = 0 then [] else digitChar (n % 10) :: natSerAux fuel (n / 10)

/-- Model of Python `str(n)` for a natural number. -/
def natSerData (n : Nat) : List Char :=
  if n = 0 then ['0'] else (natSerAux n n).reverse

/-- Model of Python `str(v)` for an integer. -/
def intSerialize (v : Int) : List Char :=
  if v < 0 then '-' :: natSerData v.natAbs else natSerData v.natAbs

/-! ### Checkpoint store (`read_last_sent_ts` / `update_last_seen_ts`) -/

/-- Python exceptions that the modelled code can let escape. -/
inductive PyErr where
  | osError
  | valueError
deriving DecidableEq, Repr

/-- State of the checkpoint file on disk. `unreadable` is a file that exists
(`os.path.isfile` is true) but whose `open(..., "r")` raises `OSError`. -/
inductive FileSt where
  | absent
  | unreadable
  | present (content : List Char)
deriving DecidableEq, Repr

/-- Embedding of `get_epoch_mins_ago`: `int(time.time() - minutes * 60)` with
the wall clock frozen at `now`. -/
def get_epoch_mins_ago (now : Int) (minutes : Int) : Int := now - minutes * 60

/-- Embedding of `read_last_sent_ts`. The source checks `os.path.isfile`,
then `open(...).read().strip()`; an empty stripped string yields the
one-hour-ago default, otherwise `int(...)` parses it. `open` on an unreadable
file and `int` on a non-integer string raise, uncaught in the source. -/
def read_last_sent_ts (now : Int) : FileSt → Except PyErr Int
  | .absent => .ok (get_epoch_mins_ago now 60)
  | .unreadable => .error .osError
  | .present content =>
    let s := pyStrip content
    if s.isEmpty then .ok (get_epoch_mins_ago now 60)
    else
      match pyToInt s with
      | some v => .ok v
      | none => .error .valueError

/-- Outcome of the checkpoint write's file I/O. `failOpen`: `open(path, "w")`
itself raises `OSError` (file untouched). `failWrite`: the open succeeded —
truncating the file, per `"w"` mode semantics — and the subsequent `write`
raised `OSError`, leaving the file empty. -/
inductive WriteOutcome where
  | ok
  | failOpen
  | failWrite
deriving DecidableEq, Repr

/-- Embedding of `update_last_seen_ts`: `open(path, "w"); f.write(str(new_ts))`
with `except OSError` around it, so it never raises. -/
def update_last_seen_ts (new_ts : Int) (o : WriteOutcome) (f : FileSt) : FileSt :=
  match o with
  | .ok => .present (intSerialize new_ts)
  | .failOpen => f
  | .failWrite => .present []

/-! ### Process-wide mutable state -/

/-- The module-level mutable state of `client.py`: the `StringIO` buffer
`output`, the `healthy` flag, and the checkpoint file. -/
structure St where
  buf : List Char
  healthy : Bool
  file : FileSt
deriving DecidableEq, Repr

/-- Embedding of `clear_output` (`truncate(0); seek(0)`). -/
def clear_output (st : St) : St := { st with buf := [] }

/-! ### HTTP / local-log sink (`send_logs`) -/

/-- Outcome of the `httpx.post` call: a response with a status code, or a
transport exception. -/
inductive PostOutcome where
  | resp (status : Int)
  | exc
deriving DecidableEq, Repr

/-- Environment for one `send_logs` call: whether the configured target is the
`"LOG_ONLY"` sentinel, what the POST returned, and how the checkpoint-file
write would go if attempted. -/
structure HttpEnv where
  logOnly : Bool
  post : PostOutcome
  writeOutcome : WriteOutcome

/-- Embedding of `send_logs`. Reads the buffer; if non-empty, either logs it
(`LOG_ONLY`, checkpoint updated unconditionally) or POSTs it (checkpoint
updated only on status 200; any other status or an exception sets the health
flag to false). `clear_output` runs at the end on every path. -/
def send_logs (env : HttpEnv) (last_epoch : Int) (st : St) : St :=
  let st1 :=
    if st.buf.isEmpty then st
    else if env.logOnly then
      { st with file := update_last_seen_ts last_epoch env.writeOutcome st.file }
    else
      match env.post with
      | .resp status =>
        if status = 200 then
          { st with file := update_last_seen_ts last_epoch env.writeOutcome st.file }
        else { st with healthy := false }
      | .exc => { st with healthy := false }
  clear_output st1

/-! ### CloudWatch sink (`send_logs_to_cloudwatch`) -/

/-- Model of `"\n".split` as used on the buffer: Python `str.split("\n")`,
which keeps empty fragments (so a trailing newline yields a final `""`). -/
def splitOnNl : List Char → List (List Char)
  | [] => [[]]
  | c :: rest =>
    if c = '\n' then [] :: splitOnNl rest
    else
      match splitOnNl rest with
      | [] => [[c]]
      | h :: t => (c :: h) :: t

/-- A CloudWatch log event: extracted millisecond timestamp and message. -/
abbrev LogEvent := Int × List Char

/-- Stable ascending insertion by timestamp, modelling Python's stable
`list.sort(key=lambda x: x["timestamp"])`. -/
def insertEvent (e : LogEvent) : List LogEvent → List LogEvent
  | [] => [e]
  | x :: xs => if e.1 ≤ x.1 then e :: x :: xs else x :: insertEvent e xs

/-- Sort log events ascending by timestamp (stable). -/
def sortEvents : List LogEvent → List LogEvent
  | [] => []
  | x :: xs => insertEvent x (sortEvents xs)

/-- Environment for one `send_logs_to_cloudwatch` call. The `Except Unit`
fields model the boto3 calls: `.error ()` is a raised `ClientError`
(`BotoCoreError` as well, for `put_log_events`), `.ok` carries the names the
describe calls returned. `parseMillis` abstracts `parse_time_to_millis`,
which consults the wall clock on fallback; it is total, as the source
function never raises. -/
structure CwEnv where
  log_group : List Char
  log_stream : List Char
  describeGroups : Except Unit (List (List Char))
  describeStreams : Except Unit (List (List Char))
  createStream : Except Unit Unit
  putOutcome : Except Unit Unit
  parseMillis : List Char → Int
  writeOutcome : WriteOutcome

/-- Result of `send_logs_to_cloudwatch`: the final mutable state, and the
batch handed to `put_log_events` when that call was made. -/
structure CwResult where
  st : St
  batch : Option (List LogEvent)

/-- Embedding of `send_logs_to_cloudwatch`. Mirrors the source's control
flow: a missing log group returns early (the describe `ClientError` is only
logged and execution continues); a describe/create failure on the log stream
returns early; a non-empty buffer whose lines all strip to empty returns
early; otherwise events are sorted by timestamp and submitted, the
checkpoint is written only when `put_log_events` succeeded, and
`clear_output` runs before returning. The health flag is never touched. -/
def send_logs_to_cloudwatch (env : CwEnv) (last_epoch : Int) (st : St) : CwResult :=
  let groupMissing :=
    match env.describeGroups with
    | .ok groups => !(groups.contains env.log_group)
    | .error _ => false
  if groupMissing then ⟨st, none⟩
  else
    match env.describeStreams with
    | .error _ => ⟨st, none⟩
    | .ok streams =>
      let streamFailed :=
        if streams.contains env.log_stream then false
        else
          match env.createStream with
          | .ok _ => false
          | .error _ => true
      if streamFailed then ⟨st, none⟩
      else if st.buf.isEmpty then ⟨clear_output st, none⟩
      else
        let list_logs := splitOnNl st.buf
        let log_events := list_logs.filterMap fun l =>
          if (pyStrip l).isEmpty then none else some (env.parseMillis l, pyStrip l)
        if log_events.isEmpty then ⟨st, none⟩
        else
          let sorted := sortEvents log_events
          match env.putOutcome with
          | .ok _ =>
            ⟨clear_output { st with file := update_last_seen_ts last_epoch env.writeOutcome st.file },
              some sorted⟩
          | .error _ => ⟨clear_output st, some sorted⟩

/-- The conditions under which `send_logs_to_cloudwatch` returns through one
of its early `return` statements, before reaching the final `clear_output`:
the log group is reported missing, the log-stream describe/create raised
`ClientError`, or the buffer is non-empty but every line strips to empty. -/
def cwEarlyReturn (env : CwEnv) (st : St) : Bool :=
  let groupMissing :=
    match env.describeGroups with
    | .ok groups => !(groups.contains env.log_group)
    | .error _ => false
  let streamFailed :=
    match env.describeStreams with
    | .error _ => true
    | .ok streams =>
      if streams.contains env.log_stream then false
      else
        match env.createStream with
        | .ok _ => false
        | .error _ => true
  let noEvents := !st.buf.isEmpty && (splitOnNl st.buf).all fun l => (pyStrip l).isEmpty
  groupMissing || (!groupMissing && (streamFailed || (!streamFailed && noEvents)))

/-! ### Loki fetch (`process_logs` / `poll_for_logs`) -/

/-- The fields of a Loki `query_range` JSON response that the code consumes:
`data.stats.summary.totalEntriesReturned` and `data.result[].values[]`, each
value a `[timestamp, line]` pair. -/
structure QueryContent where
  totalEntriesReturned : Int
  result : List (List (List Char × List Char))

/-- Embedding of `process_logs`: nothing is written when the reported total is
`<= 0`; otherwise `value[1] + "\n"` is appended to the buffer for every value
of every result, in response order. -/
def process_logs (content : QueryContent) (buf : List Char) : List Char :=
  if content.totalEntriesReturned ≤ 0 then buf
  else
    content.result.foldl (fun b values => values.foldl (fun b v => b ++ v.2 ++ ['\n']) b) buf

/-- Outcome of one `httpx.get` sub-window query: a response carrying a status
code and (for status 200) the parsed JSON content, or an exception raised
anywhere inside the `try` block (connection error, timeout, JSON decode
failure, malformed `values` entries). -/
inductive QueryOutcome where
  | resp (status : Int) (content : QueryContent)
  | exc

/-- Embedding of the `while start_epoch < get_epoch_mins_ago(1)` loop of
`poll_for_logs`. `queries i` is the outcome of the `i`-th iteration's Loki
call; `endE` is the current value of the `end_epoch` variable (initialised by
the caller to `start + 300` and reassigned to `start + 300` at the top of
each iteration). Returns `none` (Python `None`) on a failed sub-window, and
the final `end_epoch` otherwise. -/
def poll_loop (now : Int) (queries : Nat → QueryOutcome) (i : Nat)
    (start endE : Int) (st : St) : Option Int × St :=
  if h : start < get_epoch_mins_ago now 1 then
    let endE' := start + 5 * 60
    match queries i with
    | .resp status content =>
      if status = 200 then
        poll_loop now queries (i + 1) endE' endE'
          { st with healthy := true, buf := process_logs content st.buf }
      else (none, { st with healthy := false })
    | .exc => (none, { st with healthy := false })
  else (some endE, st)
termination_by (get_epoch_mins_ago now 1 - start).toNat
decreasing_by
  simp only [get_epoch_mins_ago] at *
  omega

/-- Embedding of `poll_for_logs`: read the checkpoint (which can raise), then
run the polling loop with `end_epoch` initialised to `start_epoch + 5 * 60`. -/
def poll_for_logs (now : Int) (queries : Nat → QueryOutcome) (st : St) :
    Except PyErr (Option Int × St) :=
  match read_last_sent_ts now st.file with
  | .error e => .error e
  | .ok start_epoch => .ok (poll_loop now queries 0 start_epoch (start_epoch + 5 * 60) st)

/-! ### One poll-and-forward cycle (`poll_and_send_logs`) -/

/-- Environment for one full cycle: the frozen wall clock, the Loki query
outcomes, the sink selection (`settings.st.enable_cloudwatch_forwarding`),
and the environments of whichever sink runs. -/
structure CycleEnv where
  now : Int
  queries : Nat → QueryOutcome
  enableCloudwatch : Bool
  http : HttpEnv
  cw : CwEnv

/-- Embedding of `poll_and_send_logs`: poll, then — only when the returned
`last_epoch` is truthy (non-`None` and non-zero) — forward through the
configured sink. -/
def poll_and_send_logs (env : CycleEnv) (st : St) : Except PyErr St :=
  match poll_for_logs env.now env.queries st with
  | .error e => .error e
  | .ok (none, st') => .ok st'
  | .ok (some last_epoch, st') =>
    if last_epoch = 0 then .ok st'
    else if env.enableCloudwatch then .ok (send_logs_to_cloudwatch env.cw last_epoch st').st
    else .ok (send_logs env.http last_epoch st')

/-- A sequence of cycles run one at a time (the scheduler fires
`poll_and_send_logs` repeatedly; overlap is out of scope). -/
def run_cycles (envs : List CycleEnv) (st : St) : Except PyErr St :=
  match envs with
  | [] => .ok st
  | e :: rest =>
    match poll_and_send_logs e st with
    | .error err => .error err
    | .ok st' => run_cycles rest st'

/-- The text one query response appends to the buffer: nothing when the
reported total is `<= 0`, otherwise `value[1] + "\n"` per value in response
order (the flattened form of what `process_logs` writes). -/
def contentLines (content : QueryContent) : List Char :=
  if content.totalEntriesReturned ≤ 0 then []
  else ((content.result.flatten).map fun v => v.2 ++ ['\n']).flatten

/-- The buffer text contributed by one sub-window query outcome; failing
outcomes contribute nothing since the loop aborts on them. -/
def queryLines : QueryOutcome → List Char
  | .resp _ content => contentLines content
  | .exc => []

/-- The buffer text appended, in order, by the `k` consecutive sub-window
iterations starting at query index `i`. -/
def appendedLines (queries : Nat → QueryOutcome) (i : Nat) : Nat → List Char
  | 0 => []
  | k + 1 => queryLines (queries i) ++ appendedLines queries (i + 1) k

/-! ### Concrete scenarios used by counterexamples and witnesses -/

/-- A CloudWatch environment whose describe-log-groups response does not
contain the configured log group. -/
def cwEnvMissingGroup : CwEnv :=
  ⟨['g'], ['s'], .ok [], .ok [['s']], .ok (), .ok (), fun _ => 0, .ok⟩

/-- A CloudWatch environment where everything succeeds; the timestamp
extractor returns the line length, so unordered inputs get reordered. -/
def cwEnvAllOk : CwEnv :=
  ⟨['g'], ['s'], .ok [['g']], .ok [['s']], .ok (), .ok (), fun l => (l.length : Int), .ok⟩

/-- A CloudWatch environment where `put_log_events` raises. -/
def cwEnvPutFail : CwEnv :=
  ⟨['g'], ['s'], .ok [['g']], .ok [['s']], .ok (), .error (), fun _ => 0, .ok⟩

/-- An HTTP-sink environment whose POST returns status 200. -/
def httpEnv200 : HttpEnv := ⟨false, .resp 200, .ok⟩

/-- An HTTP-sink environment whose POST returns status 500. -/
def httpEnv500 : HttpEnv := ⟨false, .resp 500, .ok⟩

/-- A buffer holding `"x"`, healthy, no checkpoint file. -/
def stX : St := ⟨['x'], true, FileSt.absent⟩

/-- A buffer holding `"x"`, unhealthy, no checkpoint file. -/
def stXUnhealthy : St := ⟨['x'], false, FileSt.absent⟩

/-- Query outcomes for the C4 witness: the first sub-window succeeds with one
entry whose line is `"b"`, the second raises. -/
def queriesC4 : Nat → QueryOutcome
  | 0 => QueryOutcome.resp 200 ⟨1, [[(['t'], ['b'])]]⟩
  | _ => QueryOutcome.exc

/-- A cycle whose first Loki query appends a line and whose second raises,
against a missing checkpoint file. -/
def envC4 : CycleEnv := ⟨400, queriesC4, false, httpEnv500, cwEnvAllOk⟩

/-- The initial state for the C4 witness: a buffer holding `"a"`. -/
def stC4 : St := ⟨['a'], true, FileSt.absent⟩

/-- A cycle against a persisted checkpoint 100 whose only query raises. -/
def envC9 : CycleEnv := ⟨400, fun _ => QueryOutcome.exc, false, httpEnv200, cwEnvAllOk⟩

/-- The initial state for the C9 witness: empty buffer, checkpoint 100. -/
def stC9 : St := ⟨[], true, FileSt.present (intSerialize 100)⟩

/-! ### Basic lemmas about the string-level models -/

theorem dropWhile_eq_self_of_all {p : Char → Bool} {l : List Char}
    (h : ∀ c ∈ l, p c = false) : l.dropWhile p = l := by
  cases l with
  | nil => rfl
  | cons a t => simp [List.dropWhile_cons, h a (List.mem_cons_self a t)]

theorem dropWhile_eq_nil_of_all {p : Char → Bool} {l : List Char}
    (h : ∀ c ∈ l, p c = true) : l.dropWhile p = [] := by
  induction l with
  | nil => rfl
  | cons a t ih =>
    rw [List.dropWhile_cons, if_pos (h a (List.mem_cons_self a t))]
    exact ih fun c hc => h c (List.mem_cons_of_mem a hc)

theorem pyStrip_eq_self {l : List Char}
    (h : ∀ c ∈ l, isSpaceChar c = false) : pyStrip l = l := by
  unfold pyStrip
  rw [dropWhile_eq_self_of_all h, dropWhile_eq_self_of_all, List.reverse_reverse]
  intro c hc
  exact h c (List.mem_reverse.mp hc)

theorem pyStrip_eq_nil_of_all_space {l : List Char}
    (h : ∀ c ∈ l, isSpaceChar c = true) : pyStrip l = [] := by
  unfold pyStrip
  rw [dropWhile_eq_nil_of_all h]
  rfl

theorem digitVal_digitChar {d : Nat} (h : d < 10) :
    digitVal (digitChar d) = some d := by
  interval_cases d <;> decide

theorem isSpaceChar_digitChar {d : Nat} (h : d < 10) :
    isSpaceChar (digitChar d) = false := by
  interval_cases d <;> decide

theorem digitChar_ne_minus {d : Nat} (h : d < 10) : digitChar d ≠ '-' := by
  interval_cases d <;> decide

theorem natSerAux_zero (fuel : Nat) : natSerAux fuel 0 = [] := by
  cases fuel <;> rfl

theorem mem_natSerAux {fuel n : Nat} {c : Char} (h : c ∈ natSerAux fuel n) :
    ∃ d, d < 10 ∧ c = digitChar d := by
  induction fuel generalizing n with
  | zero => simp [natSerAux] at h
  | succ fuel ih =>
    by_cases hn : n = 0
    · simp [natSerAux, hn] at h
    · rw [natSerAux, if_neg hn] at h
      rcases List.mem_cons.mp h with h1 | h2
      · exact ⟨n % 10, Nat.mod_lt _ (by norm_num), h1⟩
      · exact ih h2

theorem parse_natSerAux : ∀ fuel n, 0 < n → n ≤ fuel →
    parseDigitsCore ((natSerAux fuel n).reverse) = some n := by
  intro fuel
  induction fuel with
  | zero => intro n h1 h2; omega
  | succ fuel ih =>
    intro n h1 h2
    rw [natSerAux, if_neg (by omega)]
    by_cases hq : n / 10 = 0
    · have hlt : n < 10 := by omega
      rw [hq, natSerAux_zero]
      simp [parseDigitsCore, digitVal_digitChar (Nat.mod_lt n (by norm_num))]
      omega
    · have hq1 : 0 < n / 10 := Nat.pos_of_ne_zero hq
      have hq2 : n / 10 ≤ fuel := by
        have := Nat.div_lt_self h1 (by norm_num : (1:Nat) < 10)
        omega
      have := ih (n / 10) hq1 hq2
      simp only [List.reverse_cons]
      unfold parseDigitsCore at this ⊢
      rw [List.foldl_append, this]
      simp [digitVal_digitChar (Nat.mod_lt n (by norm_num : (0:Nat) < 10))]
      omega

theorem natSerData_ne_nil (n : Nat) : natSerData n ≠ [] := by
  unfold natSerData
  split
  · simp
  · rename_i hn
    obtain ⟨m, rfl⟩ := Nat.exists_eq_succ_of_ne_zero hn
    rw [natSerAux, if_neg hn]
    simp

theorem mem_natSerData {n : Nat} {c : Char} (h : c ∈ natSerData n) :
    ∃ d, d < 10 ∧ c = digitChar d := by
  by_cases hn : n = 0
  · simp [natSerData, hn] at h
    exact ⟨0, by norm_num, by rw [h]; rfl⟩
  · rw [natSerData, if_neg hn] at h
    exact mem_natSerAux (List.mem_reverse.mp h)

theorem parseDigits_natSerData (n : Nat) : parseDigits (natSerData n) = some n := by
  by_cases hn : n = 0
  · subst hn; decide
  · have hne : natSerData n ≠ [] := natSerData_ne_nil n
    rw [parseDigits, if_neg (by simpa [List.isEmpty_iff] using hne)]
    rw [natSerData, if_neg hn]
    exact parse_natSerAux n n (Nat.pos_of_ne_zero hn) le_rfl

theorem natSerData_head_not_minus (n : Nat) :
    ∀ c cs, natSerData n = c :: cs → c ≠ '-' := by
  intro c cs h
  have hc : c ∈ natSerData n := by rw [h]; exact List.mem_cons_self c cs
  obtain ⟨d, hd, rfl⟩ := mem_natSerData hc
  exact digitChar_ne_minus hd

theorem pyToInt_natSerData (n : Nat) : pyToInt (natSerData n) = some (n : Int) := by
  rcases hns : natSerData n with _ | ⟨c, cs⟩
  · exact absurd hns (natSerData_ne_nil n)
  · rw [pyToInt, if_neg (natSerData_head_not_minus n c cs hns), ← hns,
      parseDigits_natSerData]
    rfl

theorem pyToInt_intSerialize (v : Int) : pyToInt (intSerialize v) = some v := by
  by_cases hv : v < 0
  · rw [intSerialize, if_pos hv, pyToInt, if_pos rfl]
    have : parseDigits (natSerData v.natAbs) = some v.natAbs := parseDigits_natSerData _
    rw [this]
    show some (-(v.natAbs : Int)) = some v
    congr 1
    omega
  · rw [intSerialize, if_neg hv, pyToInt_natSerData]
    congr 1
    omega

theorem mem_intSerialize_not_space {v : Int} {c : Char} (h : c ∈ intSerialize v) :
    isSpaceChar c = false := by
  by_cases hv : v < 0
  · rw [intSerialize, if_pos hv] at h
    rcases List.mem_cons.mp h with h1 | h2
    · rw [h1]; decide
    · obtain ⟨d, hd, rfl⟩ := mem_natSerData h2
      exact isSpaceChar_digitChar hd
  · rw [intSerialize, if_neg hv] at h
    obtain ⟨d, hd, rfl⟩ := mem_natSerData h
    exact isSpaceChar_digitChar hd

theorem pyStrip_intSerialize (v : Int) : pyStrip (intSerialize v) = intSerialize v :=
  pyStrip_eq_self fun _ hc => mem_intSerialize_not_space hc

theorem intSerialize_ne_nil (v : Int) : intSerialize v ≠ [] := by
  by_cases hv : v < 0
  · rw [intSerialize, if_pos hv]; simp
  · rw [intSerialize, if_neg hv]; exact natSerData_ne_nil _

theorem read_after_write (now v : Int) :
    read_last_sent_ts now (update_last_seen_ts v .ok f) = .ok v := by
  show read_last_sent_ts now (.present (intSerialize v)) = .ok v
  rw [read_last_sent_ts]
  simp only [pyStrip_intSerialize]
  rw [if_neg (by simpa [List.isEmpty_iff] using intSerialize_ne_nil v),
    pyToInt_intSerialize]

/-! ### Lemmas: `process_logs` -/

theorem foldl_inner_flatten (f : (List Char × List Char) → List Char)
    (values : List (List Char × List Char)) :
    ∀ b : List Char, values.foldl (fun b v => b ++ f v) b = b ++ (values.map f).flatten := by
  induction values with
  | nil => simp
  | cons v vs ih => intro b; simp [List.foldl_cons, ih, List.append_assoc]

theorem foldl_outer_flatten (f : (List Char × List Char) → List Char)
    (results : List (List (List Char × List Char))) :
    ∀ b : List Char,
      results.foldl (fun b values => values.foldl (fun b v => b ++ f v) b) b =
        b ++ ((results.flatten).map f).flatten := by
  induction results with
  | nil => simp
  | cons r rs ih =>
    intro b
    rw [List.foldl_cons, ih, foldl_inner_flatten]
    simp [List.append_assoc]

theorem process_logs_pos {content : QueryContent} (h : 0 < content.totalEntriesReturned)
    (buf : List Char) :
    process_logs content buf =
      buf ++ ((content.result.flatten).map fun v => v.2 ++ ['\n']).flatten := by
  rw [process_logs, if_neg (by omega)]
  have := foldl_outer_flatten (fun v => v.2 ++ ['\n']) content.result buf
  simpa [List.append_assoc] using this

theorem process_logs_extends (content : QueryContent) (buf : List Char) :
    ∃ s, process_logs content buf = buf ++ s := by
  by_cases h : content.totalEntriesReturned ≤ 0
  · exact ⟨[], by rw [process_logs, if_pos h, List.append_nil]⟩
  · exact ⟨_, process_logs_pos (by omega) buf⟩

/-! ### Lemmas: `poll_loop` unfoldings -/

theorem poll_loop_step_200 {now : Int} {queries : Nat → QueryOutcome} {i : Nat}
    {start endE : Int} {st : St} {content : QueryContent}
    (h : start < get_epoch_mins_ago now 1) (hq : queries i = .resp 200 content) :
    poll_loop now queries i start endE st =
      poll_loop now queries (i + 1) (start + 5 * 60) (start + 5 * 60)
        { st with healthy := true, buf := process_logs content st.buf } := by
  rw [poll_loop, dif_pos h, hq]
  simp

theorem poll_loop_step_bad_status {now : Int} {queries : Nat → QueryOutcome} {i : Nat}
    {start endE : Int} {st : St} {status : Int} {content : QueryContent}
    (h : start < get_epoch_mins_ago now 1) (hq : queries i = .resp status content)
    (hs : status ≠ 200) :
    poll_loop now queries i start endE st = (none, { st with healthy := false }) := by
  rw [poll_loop, dif_pos h, hq]
  simp [hs]

theorem poll_loop_step_exc {now : Int} {queries : Nat → QueryOutcome} {i : Nat}
    {start endE : Int} {st : St}
    (h : start < get_epoch_mins_ago now 1) (hq : queries i = .exc) :
    poll_loop now queries i start endE st = (none, { st with healthy := false }) := by
  rw [poll_loop, dif_pos h, hq]

theorem poll_loop_done {now : Int} {queries : Nat → QueryOutcome} {i : Nat}
    {start endE : Int} {st : St} (h : ¬start < get_epoch_mins_ago now 1) :
    poll_loop now queries i start endE st = (some endE, st) := by
  rw [poll_loop, dif_neg h]

/-! ### Lemmas: `poll_loop` invariants -/

theorem poll_loop_file (now : Int) (queries : Nat → QueryOutcome) (i : Nat)
    (start endE : Int) (st : St) :
    (poll_loop now queries i start endE st).2.file = st.file := by
  induction i, start, endE, st using poll_loop.induct now queries with
  | case1 i start endE st h endE2 content hq ih =>
    rw [poll_loop_step_200 h hq]
    exact ih
  | case2 i start endE st h status content hq hs =>
    rw [poll_loop_step_bad_status h hq hs]
  | case3 i start endE st h hq =>
    rw [poll_loop_step_exc h hq]
  | case4 i start endE st h =>
    rw [poll_loop_done h]

theorem poll_loop_buf_extends (now : Int) (queries : Nat → QueryOutcome) (i : Nat)
    (start endE : Int) (st : St) :
    ∃ s, (poll_loop now queries i start endE st).2.buf = st.buf ++ s := by
  induction i, start, endE, st using poll_loop.induct now queries with
  | case1 i start endE st h endE2 content hq ih =>
    simp only [show endE2 = start + 5 * 60 from rfl] at ih
    rw [poll_loop_step_200 h hq]
    obtain ⟨s1, hs1⟩ := ih
    obtain ⟨s0, hs0⟩ := process_logs_extends content st.buf
    refine ⟨s0 ++ s1, ?_⟩
    rw [hs0] at hs1 ⊢
    rw [hs1]
    simp [List.append_assoc]
  | case2 i start endE st h status content hq hs =>
    rw [poll_loop_step_bad_status h hq hs]
    exact ⟨[], by simp⟩
  | case3 i start endE st h hq =>
    rw [poll_loop_step_exc h hq]
    exact ⟨[], by simp⟩
  | case4 i start endE st h =>
    rw [poll_loop_done h]
    exact ⟨[], by simp⟩

theorem process_logs_eq_append (content : QueryContent) (buf : List Char) :
    process_logs content buf = buf ++ contentLines content := by
  unfold contentLines
  by_cases h : content.totalEntriesReturned ≤ 0
  · rw [process_logs, if_pos h, if_pos h, List.append_nil]
  · rw [if_neg h]
    exact process_logs_pos (by omega) buf

/-- When the polling loop fails, the final buffer is exactly the buffer it
started with followed, in order, by the text appended by each of the `k`
earlier sub-window iterations — all of which returned status 200 — and the
`(i + k)`-th query is the one that failed. Nothing is rolled back. -/
theorem poll_loop_none_buf (now : Int) (queries : Nat → QueryOutcome) (i : Nat)
    (start endE : Int) (st : St) :
    ∀ st', poll_loop now queries i start endE st = (none, st') →
      ∃ k, (∀ j < k, ∃ c, queries (i + j) = QueryOutcome.resp 200 c) ∧
        (∀ c, queries (i + k) ≠ QueryOutcome.resp 200 c) ∧
        st'.buf = st.buf ++ appendedLines queries i k := by
  induction i, start, endE, st using poll_loop.induct now queries with
  | case1 i start endE st h endE2 content hq ih =>
    intro st' heq
    simp only [show endE2 = start + 5 * 60 from rfl] at ih
    rw [poll_loop_step_200 h hq] at heq
    obtain ⟨k, hsucc, hfail, hbuf⟩ := ih st' heq
    refine ⟨k + 1, ?_, ?_, ?_⟩
    · intro j hj
      cases j with
      | zero => exact ⟨content, by simpa using hq⟩
      | succ j' =>
        have hidx : i + (j' + 1) = i + 1 + j' := by omega
        rw [hidx]
        exact hsucc j' (by omega)
    · intro c
      have hidx : i + (k + 1) = i + 1 + k := by omega
      rw [hidx]
      exact hfail c
    · rw [appendedLines, hq]
      have hql : queryLines (QueryOutcome.resp 200 content) = contentLines content := rfl
      rw [hql, hbuf]
      show process_logs content st.buf ++ appendedLines queries (i + 1) k = _
      rw [process_logs_eq_append, List.append_assoc]
  | case2 i start endE st h status content hq hs =>
    intro st' heq
    rw [poll_loop_step_bad_status h hq hs] at heq
    cases heq
    refine ⟨0, fun j hj => absurd hj (Nat.not_lt_zero j), ?_, by simp [appendedLines]⟩
    intro c hc
    rw [Nat.add_zero, hq] at hc
    injection hc with h1 h2
    exact hs h1
  | case3 i start endE st h hq =>
    intro st' heq
    rw [poll_loop_step_exc h hq] at heq
    cases heq
    refine ⟨0, fun j hj => absurd hj (Nat.not_lt_zero j), ?_, by simp [appendedLines]⟩
    intro c hc
    rw [Nat.add_zero, hq] at hc
    cases hc
  | case4 i start endE st h =>
    intro st' heq
    rw [poll_loop_done h] at heq
    cases heq

theorem poll_loop_none_unhealthy (now : Int) (queries : Nat → QueryOutcome) (i : Nat)
    (start endE : Int) (st : St) :
    (poll_loop now queries i start endE st).1 = none →
      (poll_loop now queries i start endE st).2.healthy = false := by
  induction i, start, endE, st using poll_loop.induct now queries with
  | case1 i start endE st h endE2 content hq ih =>
    rw [poll_loop_step_200 h hq]
    exact ih
  | case2 i start endE st h status content hq hs =>
    rw [poll_loop_step_bad_status h hq hs]
    intro; rfl
  | case3 i start endE st h hq =>
    rw [poll_loop_step_exc h hq]
    intro; rfl
  | case4 i start endE st h =>
    rw [poll_loop_done h]
    intro hcontra; cases hcontra

theorem poll_loop_some_ge (now : Int) (queries : Nat → QueryOutcome) (i : Nat)
    (start endE : Int) (st : St) :
    ∀ e' st', poll_loop now queries i start endE st = (some e', st') →
      e' = endE ∨ start + 5 * 60 ≤ e' := by
  induction i, start, endE, st using poll_loop.induct now queries with
  | case1 i start endE st h endE2 content hq ih =>
    intro e' st' heq
    rw [poll_loop_step_200 h hq] at heq
    rcases ih e' st' heq with h1 | h2
    · right; omega
    · right; omega
  | case2 i start endE st h status content hq hs =>
    intro e' st' heq
    rw [poll_loop_step_bad_status h hq hs] at heq
    cases heq
  | case3 i start endE st h hq =>
    intro e' st' heq
    rw [poll_loop_step_exc h hq] at heq
    cases heq
  | case4 i start endE st h =>
    intro e' st' heq
    rw [poll_loop_done h] at heq
    cases heq
    left; rfl

theorem poll_loop_some_bounds (now : Int) (queries : Nat → QueryOutcome) (i : Nat)
    (start endE : Int) (st : St) :
    start < get_epoch_mins_ago now 1 →
      ∀ e' st', poll_loop now queries i start endE st = (some e', st') →
        get_epoch_mins_ago now 1 ≤ e' ∧ e' < get_epoch_mins_ago now 1 + 5 * 60 := by
  induction i, start, endE, st using poll_loop.induct now queries with
  | case1 i start endE st h endE2 content hq ih =>
    intro _ e' st' heq
    rw [poll_loop_step_200 h hq] at heq
    by_cases h2 : start + 5 * 60 < get_epoch_mins_ago now 1
    · exact ih h2 e' st' heq
    · rw [poll_loop_done h2] at heq
      cases heq
      constructor
      · omega
      · omega
  | case2 i start endE st h status content hq hs =>
    intro _ e' st' heq
    rw [poll_loop_step_bad_status h hq hs] at heq
    cases heq
  | case3 i start endE st h hq =>
    intro _ e' st' heq
    rw [poll_loop_step_exc h hq] at heq
    cases heq
  | case4 i start endE st h =>
    intro hcontra
    exact absurd hcontra h

/-! ### Lemmas: `sortEvents` -/

theorem mem_insertEvent {e b : LogEvent} :
    ∀ {l : List LogEvent}, b ∈ insertEvent e l → b = e ∨ b ∈ l := by
  intro l
  induction l with
  | nil => intro h; simpa [insertEvent] using h
  | cons x xs ih =>
    intro h
    rw [insertEvent] at h
    by_cases hc : e.1 ≤ x.1
    · rw [if_pos hc] at h
      rcases List.mem_cons.mp h with rfl | h2
      · exact Or.inl rfl
      · exact Or.inr h2
    · rw [if_neg hc] at h
      rcases List.mem_cons.mp h with rfl | h2
      · exact Or.inr (List.mem_cons_self _ _)
      · rcases ih h2 with h3 | h4
        · exact Or.inl h3
        · exact Or.inr (List.mem_cons_of_mem _ h4)

theorem insertEvent_sorted {e : LogEvent} {l : List LogEvent}
    (h : List.Pairwise (fun a b : LogEvent => a.1 ≤ b.1) l) :
    List.Pairwise (fun a b : LogEvent => a.1 ≤ b.1) (insertEvent e l) := by
  induction l with
  | nil => simp [insertEvent]
  | cons x xs ih =>
    rw [insertEvent]
    obtain ⟨hx, hxs⟩ := List.pairwise_cons.mp h
    by_cases hc : e.1 ≤ x.1
    · rw [if_pos hc]
      refine List.pairwise_cons.mpr ⟨?_, h⟩
      intro b hb
      rcases List.mem_cons.mp hb with rfl | hb2
      · exact hc
      · exact le_trans hc (hx b hb2)
    · rw [if_neg hc]
      refine List.pairwise_cons.mpr ⟨?_, ih hxs⟩
      intro b hb
      rcases mem_insertEvent hb with rfl | hb2
      · omega
      · exact hx b hb2

theorem sortEvents_sorted :
    ∀ l : List LogEvent, List.Pairwise (fun a b : LogEvent => a.1 ≤ b.1) (sortEvents l) := by
  intro l
  induction l with
  | nil => simp [sortEvents]
  | cons x xs ih => exact insertEvent_sorted ih

/-- Bridge: the event list built by `send_logs_to_cloudwatch` is empty exactly
when every split line strips to empty. -/
theorem events_empty_iff (pm : List Char → Int) (ls : List (List Char)) :
    (ls.filterMap fun l =>
      if (pyStrip l).isEmpty then none else some (pm l, pyStrip l)).isEmpty =
      ls.all fun l => (pyStrip l).isEmpty := by
  induction ls with
  | nil => rfl
  | cons a t ih =>
    simp only [List.filterMap_cons]
    by_cases hpa : pyStrip a = []
    · rw [if_pos (by simp [List.isEmpty_iff, hpa])]
      have ih2 := ih
      simp only [List.isEmpty_iff] at ih2
      simp [ih2, List.all_cons, List.isEmpty_iff, hpa]
    · rw [if_neg (by simp [List.isEmpty_iff, hpa])]
      simp [List.all_cons, List.isEmpty_iff, hpa]

/-! ### Lemmas: `send_logs_to_cloudwatch` behaviour -/

theorem cw_healthy (env : CwEnv) (last : Int) (st : St) :
    (send_logs_to_cloudwatch env last st).st.healthy = st.healthy := by
  rcases env with ⟨lg, lstr, dg, ds, cs, put, pm, wo⟩
  unfold send_logs_to_cloudwatch
  rcases dg with u | groups <;> rcases ds with u2 | streams <;>
    rcases cs with u3 | u3 <;> rcases put with u4 | u4 <;>
      simp [clear_output] <;> (repeat' split) <;> (first | rfl | simp_all [clear_output])

theorem cw_buf (env : CwEnv) (last : Int) (st : St) :
    (send_logs_to_cloudwatch env last st).st.buf =
      (if cwEarlyReturn env st then st.buf else []) := by
  rcases env with ⟨lg, lstr, dg, ds, cs, put, pm, wo⟩
  unfold send_logs_to_cloudwatch cwEarlyReturn
  rcases dg with u | groups <;> rcases ds with u2 | streams <;>
    rcases cs with u3 | u3 <;> rcases put with u4 | u4 <;>
      simp [clear_output, events_empty_iff] <;> (repeat' split) <;>
        (first | rfl | simp_all [clear_output, events_empty_iff] | skip)
  all_goals
    exfalso
    rename_i hex hall
    obtain ⟨x, hx, hnx⟩ := hex
    exact hnx (hall x hx)

theorem cw_file_noput (env : CwEnv) (last : Int) (st : St)
    (h : env.putOutcome = .error ()) :
    (send_logs_to_cloudwatch env last st).st.file = st.file := by
  rcases env with ⟨lg, lstr, dg, ds, cs, put, pm, wo⟩
  simp only at h
  subst h
  unfold send_logs_to_cloudwatch
  rcases dg with u | groups <;> rcases ds with u2 | streams <;>
    rcases cs with u3 | u3 <;>
      simp [clear_output] <;> (repeat' split) <;> (first | rfl | simp_all [clear_output])

theorem cw_file_early (env : CwEnv) (last : Int) (st : St)
    (h : cwEarlyReturn env st = true) :
    (send_logs_to_cloudwatch env last st).st.file = st.file := by
  rcases env with ⟨lg, lstr, dg, ds, cs, put, pm, wo⟩
  unfold cwEarlyReturn at h
  unfold send_logs_to_cloudwatch
  rcases dg with u | groups <;> rcases ds with u2 | streams <;>
    rcases cs with u3 | u3 <;> rcases put with u4 | u4 <;>
      simp [clear_output, events_empty_iff] at h ⊢ <;> (repeat' split) <;>
        (first | rfl | simp_all [clear_output, events_empty_iff] | skip)
  all_goals
    exfalso
    rename_i hex hall
    obtain ⟨x, hx, hnx⟩ := hex
    exact hnx (hall x hx)

theorem cw_file_success (env : CwEnv) (last : Int) (st : St)
    (h : cwEarlyReturn env st = false) (hb : st.buf ≠ [])
    (hput : env.putOutcome = .ok ()) :
    (send_logs_to_cloudwatch env last st).st.file =
      update_last_seen_ts last env.writeOutcome st.file := by
  rcases env with ⟨lg, lstr, dg, ds, cs, put, pm, wo⟩
  simp only at hput
  subst hput
  unfold cwEarlyReturn at h
  unfold send_logs_to_cloudwatch
  rcases dg with u | groups <;> rcases ds with u2 | streams <;>
    rcases cs with u3 | u3 <;>
      simp [clear_output, events_empty_iff] at h ⊢ <;> (repeat' split) <;>
        (first | rfl | simp_all [clear_output, events_empty_iff] | skip)
  all_goals
    exfalso
    rename_i hall
    obtain ⟨x, hx, hnx⟩ := h
    exact hnx (hall x hx)

theorem cw_batch_sorted (env : CwEnv) (last : Int) (st : St) (evs : List LogEvent)
    (h : (send_logs_to_cloudwatch env last st).batch = some evs) :
    List.Pairwise (fun a b : LogEvent => a.1 ≤ b.1) evs := by
  rcases env with ⟨lg, lstr, dg, ds, cs, put, pm, wo⟩
  unfold send_logs_to_cloudwatch at h
  rcases dg with u | groups <;> rcases ds with u2 | streams <;>
    rcases cs with u3 | u3 <;> rcases put with u4 | u4 <;>
      simp only [] at h <;> (repeat' split at h) <;>
        first
          | (cases h)
          | (simp only [Option.some.injEq] at h
             rw [← h]
             exact sortEvents_sorted _)
          | skip
  all_goals exact sortEvents_sorted _

theorem cw_file_cases (env : CwEnv) (last : Int) (st : St) :
    (send_logs_to_cloudwatch env last st).st.file = st.file ∨
      (send_logs_to_cloudwatch env last st).st.file =
        update_last_seen_ts last env.writeOutcome st.file := by
  rcases env with ⟨lg, lstr, dg, ds, cs, put, pm, wo⟩
  unfold send_logs_to_cloudwatch
  rcases dg with u | groups <;> rcases ds with u2 | streams <;>
    rcases cs with u3 | u3 <;> rcases put with u4 | u4 <;>
      simp [clear_output] <;> (repeat' split) <;> simp [clear_output]

/-! ### Lemmas: `send_logs` behaviour -/

theorem send_logs_buf (env : HttpEnv) (last : Int) (st : St) :
    (send_logs env last st).buf = [] := rfl

theorem send_logs_file_cases (env : HttpEnv) (last : Int) (st : St) :
    (send_logs env last st).file = st.file ∨
      (send_logs env last st).file = update_last_seen_ts last env.writeOutcome st.file := by
  unfold send_logs clear_output
  (repeat' split) <;> simp

theorem send_logs_200 (env : HttpEnv) (last : Int) (st : St)
    (hb : st.buf ≠ []) (hlog : env.logOnly = false) (hpost : env.post = .resp 200) :
    send_logs env last st =
      { buf := [], healthy := st.healthy,
        file := update_last_seen_ts last env.writeOutcome st.file } := by
  unfold send_logs clear_output
  rw [if_neg (by simpa [List.isEmpty_iff] using hb), hlog, hpost]
  simp

theorem send_logs_bad_status (env : HttpEnv) (last : Int) (st : St)
    (hb : st.buf ≠ []) (hlog : env.logOnly = false) {status : Int}
    (hpost : env.post = .resp status) (hs : status ≠ 200) :
    send_logs env last st = { buf := [], healthy := false, file := st.file } := by
  unfold send_logs clear_output
  rw [if_neg (by simpa [List.isEmpty_iff] using hb), hlog, hpost]
  simp [hs]

theorem send_logs_exc (env : HttpEnv) (last : Int) (st : St)
    (hb : st.buf ≠ []) (hlog : env.logOnly = false) (hpost : env.post = .exc) :
    send_logs env last st = { buf := [], healthy := false, file := st.file } := by
  unfold send_logs clear_output
  rw [if_neg (by simpa [List.isEmpty_iff] using hb), hlog, hpost]
  simp

/-! ### Claim theorems -/

/-- Claim C1, counterexample: with the cloud sink, a non-empty buffer and a
missing log group, the forwarding call returns with the buffer still
non-empty, so the buffer is not empty for every forwarding outcome. -/
theorem C1_counterexample :
    (send_logs_to_cloudwatch cwEnvMissingGroup 7 stX).st.buf ≠ [] := by decide

/-- Claim C1, amended: the local-log and HTTP sinks leave the buffer empty on
return for every outcome; the cloud sink leaves it empty except on its early
returns (missing log group, log-stream describe/create failure, or a
non-empty buffer whose lines all strip to empty), where the buffer is
retained unchanged. -/
theorem C1_amended (henv : HttpEnv) (cenv : CwEnv) (last : Int) (st : St) :
    (send_logs henv last st).buf = [] ∧
    (send_logs_to_cloudwatch cenv last st).st.buf =
      (if cwEarlyReturn cenv st then st.buf else []) :=
  ⟨send_logs_buf henv last st, cw_buf cenv last st⟩

/-- Claim C2, counterexample: with a non-empty buffer and a POST that returns
status 200, `send_logs` leaves the health flag exactly as it was — here
false — rather than setting it healthy. -/
theorem C2_counterexample :
    (send_logs httpEnv200 9 stXUnhealthy).healthy = false := by decide

/-- Claim C2, amended: for the HTTP sink with a non-empty buffer, a 200
response writes the checkpoint to exactly the end value passed in (when the
file write succeeds) and leaves the Health State unchanged (it is not set
healthy by the send; in a full cycle it is already healthy because the fetch
set it); any non-200 status or transport exception leaves the checkpoint
unchanged and sets the Health State unhealthy. -/
theorem C2_amended (env : HttpEnv) (last : Int) (st : St)
    (hb : st.buf ≠ []) (hlog : env.logOnly = false) :
    (env.post = .resp 200 → env.writeOutcome = .ok →
      (send_logs env last st).file = FileSt.present (intSerialize last) ∧
      (send_logs env last st).healthy = st.healthy) ∧
    (∀ status : Int, env.post = .resp status → status ≠ 200 →
      (send_logs env last st).file = st.file ∧
      (send_logs env last st).healthy = false) ∧
    (env.post = .exc →
      (send_logs env last st).file = st.file ∧
      (send_logs env last st).healthy = false) := by
  refine ⟨fun hp hw => ?_, fun status hp hs => ?_, fun hp => ?_⟩
  · rw [send_logs_200 env last st hb hlog hp, hw]
    exact ⟨rfl, rfl⟩
  · rw [send_logs_bad_status env last st hb hlog hp hs]
    exact ⟨rfl, rfl⟩
  · rw [send_logs_exc env last st hb hlog hp]
    exact ⟨rfl, rfl⟩

/-- Claim C2, witness: the amended theorem applied to a concrete 500-response
environment. -/
theorem C2_witness :
    (send_logs httpEnv500 3 stX).file = stX.file ∧
    (send_logs httpEnv500 3 stX).healthy = false :=
  (C2_amended httpEnv500 3 stX (by decide) rfl).2.1 500 rfl (by decide)

/-- Claim C5, counterexample: reading the checkpoint from an existing but
unreadable file raises `OSError` to the caller instead of returning the
one-hour-ago default. -/
theorem C5_counterexample :
    read_last_sent_ts 9999 FileSt.unreadable = .error PyErr.osError := rfl

/-- Claim C5, amended: the checkpoint read returns `now - 3600` when the file
is absent or its content strips to empty, and the persisted value when the
content is a serialized integer; but it raises (`OSError` / `ValueError`)
when the file is unreadable or its content is not an integer literal. -/
theorem C5_amended (now : Int) :
    read_last_sent_ts now FileSt.absent = .ok (now - 3600) ∧
    (∀ c : List Char, (∀ ch ∈ c, isSpaceChar ch = true) →
      read_last_sent_ts now (FileSt.present c) = .ok (now - 3600)) ∧
    (∀ v : Int, read_last_sent_ts now (FileSt.present (intSerialize v)) = .ok v) ∧
    read_last_sent_ts now FileSt.unreadable = .error PyErr.osError ∧
    read_last_sent_ts now (FileSt.present ['a', 'b', 'c']) = .error PyErr.valueError := by
  refine ⟨rfl, fun c hc => ?_, fun v => read_after_write (f := FileSt.absent) now v, rfl, rfl⟩
  rw [read_last_sent_ts]
  simp only [pyStrip_eq_nil_of_all_space hc]
  rfl

/-- Claim C5, witness: the amended theorem applied at `now = 5000`, with the
blank-content clause discharged on the one-space file. -/
theorem C5_witness :
    read_last_sent_ts 5000 (FileSt.present [' ']) = .ok (5000 - 3600) :=
  (C5_amended 5000).2.1 [' '] (by decide)

/-- Claim C6, counterexample: a previously persisted checkpoint 500 is
destroyed by a write of 600 that fails after `open(..., "w")` truncated the
file: a following read returns the default (here 400), not 500. -/
theorem C6_counterexample :
    update_last_seen_ts 600 WriteOutcome.failWrite (FileSt.present (intSerialize 500)) =
      FileSt.present [] ∧
    read_last_sent_ts 4000 (FileSt.present []) = .ok 400 ∧ (400 : Int) ≠ 500 :=
  ⟨rfl, rfl, by decide⟩

/-- Claim C6, amended: the checkpoint write never raises (it is total); when
the failure is in opening the file, the previous value `c` is preserved and
re-read intact; but when the open succeeded and the write itself failed, the
file has been truncated and a following read returns the `now - 3600`
default instead of `c`. -/
theorem C6_amended (now c new : Int) :
    update_last_seen_ts new WriteOutcome.failOpen (FileSt.present (intSerialize c)) =
      FileSt.present (intSerialize c) ∧
    read_last_sent_ts now
      (update_last_seen_ts new WriteOutcome.failOpen (FileSt.present (intSerialize c))) =
      .ok c ∧
    read_last_sent_ts now
      (update_last_seen_ts new WriteOutcome.failWrite (FileSt.present (intSerialize c))) =
      .ok (now - 3600) :=
  ⟨rfl, read_after_write (f := FileSt.absent) now c, rfl⟩

/-- Claim C7: whenever the cloud sink submits a batch, the submitted log
events are sorted non-decreasing by their extracted millisecond timestamps,
whatever the order of the buffer lines. -/
theorem C7_batch_sorted (env : CwEnv) (last : Int) (st : St) (evs : List LogEvent)
    (h : (send_logs_to_cloudwatch env last st).batch = some evs) :
    List.Pairwise (fun a b : LogEvent => a.1 ≤ b.1) evs :=
  cw_batch_sorted env last st evs h

/-- Claim C7, witness: a buffer holding `"bb\na\n"` (timestamps = line
lengths, so out of order) is submitted as the reordered, sorted batch. -/
theorem C7_witness :
    (send_logs_to_cloudwatch cwEnvAllOk 9 ⟨['b', 'b', '\n', 'a', '\n'], true, FileSt.absent⟩).batch
      = some [(1, ['a']), (2, ['b', 'b'])] ∧
    List.Pairwise (fun a b : LogEvent => a.1 ≤ b.1) [((1 : Int), ['a']), (2, ['b', 'b'])] :=
  ⟨by decide, C7_batch_sorted cwEnvAllOk 9 ⟨['b', 'b', '\n', 'a', '\n'], true, FileSt.absent⟩
    [(1, ['a']), (2, ['b', 'b'])] (by decide)⟩

/-- Claim C8, counterexample: with the cloud sink and a missing log group —
a delivery failure — the health flag stays exactly as it was (here true): the
Health State does not become unhealthy. -/
theorem C8_counterexample :
    (send_logs_to_cloudwatch cwEnvMissingGroup 7 stX).st.healthy = true := by decide

/-- Claim C8, amended: the cloud sink never modifies the Health State at all;
a submission failure or an early return (missing log group or log stream)
leaves the checkpoint unadvanced, and on submission success the checkpoint is
written to exactly the end value passed in by the caller. -/
theorem C8_amended (env : CwEnv) (last : Int) (st : St) :
    (send_logs_to_cloudwatch env last st).st.healthy = st.healthy ∧
    (env.putOutcome = .error () →
      (send_logs_to_cloudwatch env last st).st.file = st.file) ∧
    (cwEarlyReturn env st = true →
      (send_logs_to_cloudwatch env last st).st.file = st.file) ∧
    (cwEarlyReturn env st = false → st.buf ≠ [] → env.putOutcome = .ok () →
      env.writeOutcome = .ok →
      (send_logs_to_cloudwatch env last st).st.file = FileSt.present (intSerialize last)) :=
  ⟨cw_healthy env last st,
   fun h => cw_file_noput env last st h,
   fun h => cw_file_early env last st h,
   fun h1 h2 h3 h4 => by
     rw [cw_file_success env last st h1 h2 h3, h4]
     rfl⟩

/-- Claim C8, witness: the amended theorem applied to a failing
`put_log_events` call: health stays true, checkpoint file untouched. -/
theorem C8_witness :
    (send_logs_to_cloudwatch cwEnvPutFail 7 stX).st.healthy = true ∧
    (send_logs_to_cloudwatch cwEnvPutFail 7 stX).st.file = FileSt.absent :=
  ⟨(C8_amended cwEnvPutFail 7 stX).1, (C8_amended cwEnvPutFail 7 stX).2.1 rfl⟩

/-- Claim C10: `process_logs` appends nothing when the reported
`totalEntriesReturned` is at most zero, even if the results hold values;
otherwise it appends `value[1] + "\n"` for every value of every result, in
response order. -/
theorem C10_process_logs (content : QueryContent) (buf : List Char) :
    (content.totalEntriesReturned ≤ 0 → process_logs content buf = buf) ∧
    (0 < content.totalEntriesReturned →
      process_logs content buf =
        buf ++ ((content.result.flatten).map fun v => v.2 ++ ['\n']).flatten) :=
  ⟨fun h => by rw [process_logs, if_pos h], fun h => process_logs_pos h buf⟩

/-- Claim C10, witness: a response reporting zero entries appends nothing even
though a value is present; a response reporting two entries appends exactly
its two lines, newline-terminated, in order. -/
theorem C10_witness :
    process_logs ⟨0, [[(['t'], ['x'])]]⟩ ['b'] = ['b'] ∧
    process_logs ⟨2, [[(['t'], ['x'])], [(['u'], ['y'])]]⟩ [] = ['x', '\n', 'y', '\n'] := by
  constructor
  · exact (C10_process_logs ⟨0, [[(['t'], ['x'])]]⟩ ['b']).1 (by decide)
  · rw [(C10_process_logs ⟨2, [[(['t'], ['x'])], [(['u'], ['y'])]]⟩ []).2 (by decide)]
    decide

/-- One cycle preserves a persisted integer checkpoint and can only move it
forward: assuming the checkpoint-file writes that occur succeed, the cycle
completes and the persisted value after it is at least the value read at its
start (failed fetches and failed sends leave the file untouched). -/
theorem cycle_file_mono (env : CycleEnv) (st : St) (c : Int)
    (hfile : st.file = FileSt.present (intSerialize c))
    (hw1 : env.http.writeOutcome = .ok) (hw2 : env.cw.writeOutcome = .ok) :
    ∃ st' c', poll_and_send_logs env st = .ok st' ∧
      st'.file = FileSt.present (intSerialize c') ∧ c ≤ c' := by
  have hread : read_last_sent_ts env.now st.file = .ok c := by
    rw [hfile]; exact read_after_write (f := FileSt.absent) env.now c
  rcases hpoll : poll_loop env.now env.queries 0 c (c + 5 * 60) st with ⟨res, st2⟩
  have hfile2 : st2.file = st.file := by
    have := poll_loop_file env.now env.queries 0 c (c + 5 * 60) st
    rw [hpoll] at this; exact this
  have hrun : poll_for_logs env.now env.queries st = .ok (res, st2) := by
    rw [poll_for_logs, hread]
    show Except.ok (poll_loop env.now env.queries 0 c (c + 5 * 60) st) = .ok (res, st2)
    rw [hpoll]
  cases res with
  | none =>
    refine ⟨st2, c, ?_, by rw [hfile2, hfile], le_rfl⟩
    rw [poll_and_send_logs, hrun]
  | some e =>
    have he : c ≤ e := by
      rcases poll_loop_some_ge env.now env.queries 0 c (c + 5 * 60) st e st2 hpoll with h1 | h2 <;>
        omega
    by_cases hz : e = 0
    · subst hz
      refine ⟨st2, c, ?_, by rw [hfile2, hfile], le_rfl⟩
      rw [poll_and_send_logs, hrun]
      simp
    · by_cases hcw : env.enableCloudwatch
      · rcases cw_file_cases env.cw e st2 with hf | hf
        · refine ⟨(send_logs_to_cloudwatch env.cw e st2).st, c, ?_,
            by rw [hf, hfile2, hfile], le_rfl⟩
          rw [poll_and_send_logs, hrun]
          simp [hz, hcw]
        · refine ⟨(send_logs_to_cloudwatch env.cw e st2).st, e, ?_, ?_, he⟩
          · rw [poll_and_send_logs, hrun]
            simp [hz, hcw]
          · rw [hf, hw2]
            rfl
      · rcases send_logs_file_cases env.http e st2 with hf | hf
        · refine ⟨send_logs env.http e st2, c, ?_, by rw [hf, hfile2, hfile], le_rfl⟩
          rw [poll_and_send_logs, hrun]
          simp [hz, hcw]
        · refine ⟨send_logs env.http e st2, e, ?_, ?_, he⟩
          · rw [poll_and_send_logs, hrun]
            simp [hz, hcw]
          · rw [hf, hw1]
            rfl

/-- Claim C3, counterexample: with `now = 4000` and a persisted checkpoint
3990 (within 60 seconds of now, so the loop body never runs), the fetch
returns 4290 = checkpoint + 300 — not the checkpoint unchanged, and beyond
the claimed `now - 60 + 300 = 4240` bound. -/
theorem C3_counterexample :
    poll_for_logs 4000 (fun _ => QueryOutcome.exc)
        ⟨[], true, FileSt.present (intSerialize 3990)⟩ =
      .ok (some 4290, ⟨[], true, FileSt.present (intSerialize 3990)⟩) ∧
    (4290 : Int) ≠ 3990 ∧ ¬((4290 : Int) ≤ 4000 - 60 + 300) := by
  refine ⟨?_, by decide, by decide⟩
  have hread : read_last_sent_ts 4000 (FileSt.present (intSerialize 3990)) = .ok 3990 :=
    read_after_write (f := FileSt.absent) 4000 3990
  rw [poll_for_logs, hread]
  show Except.ok (poll_loop 4000 (fun _ => QueryOutcome.exc) 0 3990 (3990 + 5 * 60)
    ⟨[], true, FileSt.present (intSerialize 3990)⟩) = _
  rw [poll_loop_done (by decide)]
  norm_num

/-- Claim C3, amended: when the checkpoint is below `now - 60`, any end value
the fetch returns on success lies in `[now - 60, now - 60 + 300)`, so the
stated bound holds for executed loops; but when the checkpoint is within 60
seconds of now the loop body never executes and the fetch returns
`checkpoint + 300` (not the original checkpoint), with the state — in
particular the buffer — unchanged. -/
theorem C3_amended (now : Int) (queries : Nat → QueryOutcome) (st : St) (start : Int)
    (hread : read_last_sent_ts now st.file = .ok start) :
    (now - 60 ≤ start →
      poll_for_logs now queries st = .ok (some (start + 5 * 60), st)) ∧
    (start < now - 60 → ∀ e st', poll_for_logs now queries st = .ok (some e, st') →
      now - 60 ≤ e ∧ e < now - 60 + 5 * 60) := by
  have hlim : get_epoch_mins_ago now 1 = now - 60 := by
    unfold get_epoch_mins_ago; omega
  constructor
  · intro hge
    rw [poll_for_logs, hread]
    show Except.ok (poll_loop now queries 0 start (start + 5 * 60) st) = _
    rw [poll_loop_done (by omega)]
  · intro hlt e st' heq
    rw [poll_for_logs, hread] at heq
    have h2 : poll_loop now queries 0 start (start + 5 * 60) st = (some e, st') := by
      injection heq
    have hb := poll_loop_some_bounds now queries 0 start (start + 5 * 60) st
      (by omega) e st' h2
    omega

/-- Claim C3, witness: the amended theorem applied at `now = 4000` with
checkpoint 3990. -/
theorem C3_witness :
    poll_for_logs 4000 (fun _ => QueryOutcome.exc)
        ⟨[], true, FileSt.present (intSerialize 3990)⟩ =
      .ok (some (3990 + 5 * 60), ⟨[], true, FileSt.present (intSerialize 3990)⟩) :=
  (C3_amended 4000 (fun _ => QueryOutcome.exc) ⟨[], true, FileSt.present (intSerialize 3990)⟩
    3990 (read_after_write (f := FileSt.absent) 4000 3990)).1 (by decide)

/-- Claim C4: whenever a cycle's fetch fails on some sub-window (returning
the `None` failure value), the returned state is unhealthy; the buffer is
exactly the initial buffer followed, in order, by the lines appended by each
of the `k` earlier sub-window iterations of this same cycle — all of which
returned status 200 — with the `k`-th query being the failing one, so nothing
those earlier iterations wrote is rolled back; the checkpoint file is
untouched; and the whole cycle ends there — no send happens, so the
checkpoint is not advanced. -/
theorem C4_fetch_failure (env : CycleEnv) (st st' : St)
    (h : poll_for_logs env.now env.queries st = .ok (none, st')) :
    st'.healthy = false ∧
    (∃ k, (∀ j < k, ∃ c, env.queries j = QueryOutcome.resp 200 c) ∧
      (∀ c, env.queries k ≠ QueryOutcome.resp 200 c) ∧
      st'.buf = st.buf ++ appendedLines env.queries 0 k) ∧
    st'.file = st.file ∧
    poll_and_send_logs env st = .ok st' := by
  have hOrig := h
  rcases hread : read_last_sent_ts env.now st.file with e | start
  · rw [poll_for_logs, hread] at h
    cases h
  · rw [poll_for_logs, hread] at h
    have h2 : poll_loop env.now env.queries 0 start (start + 5 * 60) st = (none, st') := by
      injection h
    refine ⟨?_, ?_, ?_, ?_⟩
    · have := poll_loop_none_unhealthy env.now env.queries 0 start (start + 5 * 60) st
      rw [h2] at this
      exact this rfl
    · have := poll_loop_none_buf env.now env.queries 0 start (start + 5 * 60) st st' h2
      simpa using this
    · have := poll_loop_file env.now env.queries 0 start (start + 5 * 60) st
      rw [h2] at this
      exact this
    · rw [poll_and_send_logs, hOrig]

/-- Claim C4, witness: the theorem applied to a cycle whose first sub-window
succeeds (appending `"b\n"` to the buffer `"a"`) and whose second raises:
the appended line is retained in the final buffer. -/
theorem C4_witness :
    poll_and_send_logs envC4 stC4 = .ok ⟨['a', 'b', '\n'], false, FileSt.absent⟩ ∧
    (∃ k, (∀ j < k, ∃ c, envC4.queries j = QueryOutcome.resp 200 c) ∧
      (∀ c, envC4.queries k ≠ QueryOutcome.resp 200 c) ∧
      (⟨['a', 'b', '\n'], false, FileSt.absent⟩ : St).buf =
        stC4.buf ++ appendedLines envC4.queries 0 k) := by
  have h : poll_for_logs envC4.now envC4.queries stC4 =
      .ok (none, ⟨['a', 'b', '\n'], false, FileSt.absent⟩) := by
    have hread : read_last_sent_ts envC4.now stC4.file = .ok (-3200) := rfl
    rw [poll_for_logs, hread]
    show Except.ok (poll_loop envC4.now envC4.queries 0 (-3200) (-3200 + 5 * 60) stC4) = _
    rw [poll_loop_step_200 (by decide) rfl, poll_loop_step_exc (by decide) rfl]
    rfl
  exact ⟨(C4_fetch_failure envC4 stC4 _ h).2.2.2, (C4_fetch_failure envC4 stC4 _ h).2.1⟩

/-- Claim C9: across any sequence of cycles run one at a time, starting from
a persisted integer checkpoint and assuming the checkpoint-file writes that
occur succeed, the run completes and the persisted checkpoint value is
monotonically non-decreasing: the final persisted value is at least the
initial one (successful cycles write a value no smaller than the one they
read; failed cycles write nothing). -/
theorem C9_checkpoint_monotone (envs : List CycleEnv) (st : St) (c : Int)
    (hw : ∀ e ∈ envs, e.http.writeOutcome = .ok ∧ e.cw.writeOutcome = .ok)
    (hfile : st.file = FileSt.present (intSerialize c)) :
    ∃ st' c', run_cycles envs st = .ok st' ∧
      st'.file = FileSt.present (intSerialize c') ∧ c ≤ c' := by
  induction envs generalizing st c with
  | nil => exact ⟨st, c, rfl, hfile, le_rfl⟩
  | cons e rest ih =>
    obtain ⟨st1, c1, hrun, hf1, hc1⟩ := cycle_file_mono e st c hfile
      (hw e (List.mem_cons_self e rest)).1 (hw e (List.mem_cons_self e rest)).2
    obtain ⟨st', c', hrun', hf', hc'⟩ :=
      ih st1 c1 (fun x hx => hw x (List.mem_cons_of_mem e hx)) hf1
    refine ⟨st', c', ?_, hf', le_trans hc1 hc'⟩
    rw [run_cycles, hrun]
    exact hrun'

/-- Claim C9, witness: the theorem applied to a one-cycle run from a
persisted checkpoint of 100. -/
theorem C9_witness :
    ∃ st' c', run_cycles [envC9] stC9 = .ok st' ∧
      st'.file = FileSt.present (intSerialize c') ∧ (100 : Int) ≤ c' :=
  C9_checkpoint_monotone [envC9] stC9 100
    (fun e he => by rw [List.mem_singleton] at he; subst he; exact ⟨rfl, rfl⟩) rfl
